import Mathlib

/-!
Verification of the cellular-automaton core of `game_of_life` (`src/main.rs`):
a Conway's-Game-of-Life step on a fixed 30×20 grid, driven by a repeating
timer, with a mouse handler that sets single cells alive.

The board `[[Cell; GRID_WIDTH]; GRID_HEIGHT]` (indexed `board[y][x]`) is
embedded as a function `Nat → Nat → Bool`; only indices `y < GRID_HEIGHT`,
`x < GRID_WIDTH` are meaningful.  Fallible indexing in the input handler is
embedded as `Option` (with `none` standing for the out-of-bounds panic).
-/

abbrev Board := Nat → Nat → Bool

def GRID_WIDTH : Nat := 30

def GRID_HEIGHT : Nat := 20

/-- The eight direction offsets of `surrounding_count`, in source order. -/
def directions : List (Int × Int) :=
  [(-1, -1), (0, -1), (1, -1), (-1, 0), (1, 0), (-1, 1), (0, 1), (1, 1)]

/-- The `new_x` computation of `surrounding_count`: branch on the current
column being the first or last, otherwise add the offset and cast back. -/
def newX (x : Nat) (dx : Int) : Nat :=
  if x = 0 then GRID_WIDTH - 1
  else if x = GRID_WIDTH - 1 then 0
  else ((x : Int) + dx).toNat

/-- The `new_y` computation of `surrounding_count`, analogous to `newX`. -/
def newY (y : Nat) (dy : Int) : Nat :=
  if y = 0 then GRID_HEIGHT - 1
  else if y = GRID_HEIGHT - 1 then 0
  else ((y : Int) + dy).toNat

/-- The neighbor counting loop of `surrounding_count(board, [x, y])`. -/
def surrounding_count (board : Board) (x y : Nat) : Nat :=
  directions.foldl
    (fun count d => if board (newY y d.2) (newX x d.1) then count + 1 else count) 0

/-- Writing one cell of the board: `board[y][x].alive = v`. -/
def setCell (b : Board) (y x : Nat) (v : Bool) : Board :=
  fun y' x' => if y' = y ∧ x' = x then v else b y' x'

/-- The loop body of `execute_step` at cell `(x, y)`: reads `old` (the clone
of the pre-step board) and writes at most the one cell `(x, y)` of `b`.
The conditions are exactly the source's, including the precedence of
`old_board[y][x].alive && surrounding == 2 || surrounding == 3`. -/
def stepCellWrite (old b : Board) (x y : Nat) : Board :=
  let surrounding := surrounding_count old x y
  if !(old y x) && surrounding == 3 then setCell b y x true
  else if old y x && surrounding == 2 || surrounding == 3 then b
  else setCell b y x false

/-- The grid update of `execute_step`: clone the board, and if the timer just
finished, run the in-place double loop (outer over `x`, inner over `y`). -/
def execute_step (justFinished : Bool) (board : Board) : Board :=
  let old_board := board
  if justFinished then
    (List.range GRID_WIDTH).foldl
      (fun b x =>
        (List.range GRID_HEIGHT).foldl (fun b y => stepCellWrite old_board b x y) b)
      board
  else board

/-- The per-cell result of the `execute_step` loop body, as a value: what the
cell `(x, y)` holds after `stepCellWrite old b x y`, given that it held `cur`
before (`cur` is kept by the write-free middle branch). -/
def stepCell (old : Board) (x y : Nat) (cur : Bool) : Bool :=
  let surrounding := surrounding_count old x y
  if !(old y x) && surrounding == 3 then true
  else if old y x && surrounding == 2 || surrounding == 3 then cur
  else false

/-- A two-buffer step: every cell of the fresh grid is computed from the
immutable snapshot `board` alone (out-of-range positions of the function
representation are carried over unchanged, as the in-place loop never
touches them). -/
def step_twoBuffer (board : Board) : Board :=
  fun y x =>
    if x < GRID_WIDTH ∧ y < GRID_HEIGHT then stepCell board x y (board y x)
    else board y x

/-- The canonical Game-of-Life rule, following the spec's wording: a dead
cell becomes alive exactly on count 3; a live cell stays alive exactly on
counts 2 and 3. -/
def canonicalRule (alive : Bool) (n : Nat) : Bool :=
  if alive then n == 2 || n == 3 else n == 3

/-- Modelled from the spec: the intended toroidal neighbor count, where each
coordinate wraps modulo `GRID_WIDTH`/`GRID_HEIGHT` independently per axis
(`-1` maps to `WIDTH-1`/`HEIGHT-1`, `WIDTH`/`HEIGHT` maps to `0`). -/
def toroidal_count (board : Board) (x y : Nat) : Nat :=
  directions.foldl
    (fun count d =>
      if board (((y : Int) + d.2 + GRID_HEIGHT).toNat % GRID_HEIGHT)
          (((x : Int) + d.1 + GRID_WIDTH).toNat % GRID_WIDTH) then count + 1
      else count) 0

/-- Cell size in pixels (`CELL_SIZE`); the window is
`GRID_WIDTH * CELL_SIZE × GRID_HEIGHT * CELL_SIZE` pixels. -/
def CELL_SIZE : ℚ := 10

/-- The `add_cells` handler: when the left button is pressed and the window
reports a cursor position (modelled as exact rationals), derive grid
coordinates by dividing by `CELL_SIZE` and truncating, then write
`board[y][x].alive = true`.  The source indexes the board unguarded; an
out-of-range index panics, embedded here as `none`. -/
def add_cells (board : Board) (mousePressed : Bool) (cursor : Option (ℚ × ℚ)) :
    Option Board :=
  if mousePressed then
    match cursor with
    | some position =>
        let x := (⌊position.1 / CELL_SIZE⌋).toNat
        let y := (⌊position.2 / CELL_SIZE⌋).toNat
        if y < GRID_HEIGHT ∧ x < GRID_WIDTH then some (setCell board y x true)
        else none
    | none => some board
  else some board

/-- The repeating simulation timer (`SimulationTick`): pause flag, elapsed
time and duration, in milliseconds. -/
structure SimTimer where
  paused : Bool
  elapsedMs : Nat
  durationMs : Nat

/-- Modelled from the spec: the tick of the external repeating timer that
drives the scheduler.  A paused timer does not advance and never reports
"just finished"; otherwise the delta is added and the timer reports "just
finished" exactly when the accumulated time reaches the duration. -/
def tickTimer (t : SimTimer) (deltaMs : Nat) : SimTimer × Bool :=
  if t.paused then (t, false)
  else
    let e := t.elapsedMs + deltaMs
    if 0 < t.durationMs ∧ t.durationMs ≤ e then
      ({ t with elapsedMs := e % t.durationMs }, true)
    else ({ t with elapsedMs := e }, false)

/-- The `pause_sim` system: on a just-pressed space key, unpause a paused
timer and pause a running one.  Its inputs are the keyboard and the timer
only; it has no access to the board. -/
def pause_sim (spaceJustPressed : Bool) (t : SimTimer) : SimTimer :=
  if spaceJustPressed then
    if t.paused then { t with paused := false } else { t with paused := true }
  else t

/-- The whole mutable state a frame acts on: the board (`GameData`) and the
timer (`SimulationTick`). -/
structure AppState where
  board : Board
  timer : SimTimer

/-- `pause_sim` lifted to the full state: only the timer component changes. -/
def pause_sim_sys (spaceJustPressed : Bool) (s : AppState) : AppState :=
  { s with timer := pause_sim spaceJustPressed s.timer }

/-- The `execute_step` system for one frame: tick the timer by the frame
delta, then run the grid update with the timer's "just finished" flag. -/
def execute_step_sys (deltaMs : Nat) (s : AppState) : AppState :=
  let r := tickTimer s.timer deltaMs
  { board := execute_step r.2 s.board, timer := r.1 }

set_option maxRecDepth 100000

theorem setCell_same (b : Board) (y x : Nat) (v : Bool) : setCell b y x v y x = v := by
  simp [setCell]

theorem setCell_other (b : Board) (y x : Nat) (v : Bool) (y' x' : Nat)
    (h : ¬(y' = y ∧ x' = x)) : setCell b y x v y' x' = b y' x' := by
  simp only [setCell, if_neg h]

theorem stepCellWrite_same (old b : Board) (x y : Nat) :
    stepCellWrite old b x y y x = stepCell old x y (b y x) := by
  simp only [stepCellWrite, stepCell]
  split_ifs
  · exact setCell_same b y x true
  · rfl
  · exact setCell_same b y x false

theorem stepCellWrite_other (old b : Board) (x y y' x' : Nat)
    (h : ¬(y' = y ∧ x' = x)) : stepCellWrite old b x y y' x' = b y' x' := by
  simp only [stepCellWrite]
  split_ifs
  · exact setCell_other b y x true y' x' h
  · rfl
  · exact setCell_other b y x false y' x' h

theorem inner_loop_eval (old : Board) (x : Nat) (b : Board) (n : Nat) : ∀ y' x',
    ((List.range n).foldl (fun b y => stepCellWrite old b x y) b) y' x'
      = if x' = x ∧ y' < n then stepCell old x y' (b y' x') else b y' x' := by
  induction n with
  | zero => intro y' x'; simp
  | succ n ih =>
      intro y' x'
      rw [List.range_succ, List.foldl_append, List.foldl_cons, List.foldl_nil]
      by_cases hx : x' = x
      · subst hx
        by_cases hy : y' = n
        · subst hy
          rw [stepCellWrite_same, ih]
          simp
        · rw [stepCellWrite_other _ _ _ _ _ _ (by tauto), ih]
          by_cases h2 : y' < n
          · have h3 : y' < n + 1 := by omega
            simp [h2, h3]
          · have h3 : ¬ y' < n + 1 := by omega
            simp [h2, h3]
      · rw [stepCellWrite_other _ _ _ _ _ _ (by tauto), ih]
        simp [hx]

theorem outer_loop_eval (old b : Board) (m : Nat) : ∀ y' x',
    ((List.range m).foldl
        (fun b x => (List.range GRID_HEIGHT).foldl (fun b y => stepCellWrite old b x y) b)
        b) y' x'
      = if x' < m ∧ y' < GRID_HEIGHT then stepCell old x' y' (b y' x') else b y' x' := by
  induction m with
  | zero => intro y' x'; simp
  | succ m ih =>
      intro y' x'
      rw [List.range_succ, List.foldl_append, List.foldl_cons, List.foldl_nil,
        inner_loop_eval, ih]
      by_cases hx : x' = m
      · subst hx
        split_ifs <;> first | rfl | omega
      · split_ifs <;> first | rfl | omega

theorem execute_step_eval (board : Board) (y x : Nat) :
    execute_step true board y x
      = if x < GRID_WIDTH ∧ y < GRID_HEIGHT then stepCell board x y (board y x)
        else board y x := by
  have h := outer_loop_eval board board GRID_WIDTH y x
  simpa [execute_step] using h

theorem stepCell_canonical (old : Board) (x y : Nat) :
    stepCell old x y (old y x) = canonicalRule (old y x) (surrounding_count old x y) := by
  simp only [stepCell, canonicalRule]
  cases h : old y x
  · cases h3 : surrounding_count old x y == 3 <;> simp [h3]
  · cases h2 : surrounding_count old x y == 2 <;>
      cases h3 : surrounding_count old x y == 3 <;> simp [h2, h3]

/-- The all-dead board. -/
def deadBoard : Board := fun _ _ => false

/-- A board whose only live cell is at `(x, y) = (29, 4)`, on the right edge. -/
def lonelyEdgeBoard : Board := fun y x => y == 4 && x == 29

/-- A board whose only live cell is at the corner `(x, y) = (29, 19)`. -/
def lonelyCornerBoard : Board := fun y x => y == 19 && x == 29

/-- A 2×2 block of live cells at columns 0–1, rows 5–6, touching the left
edge; everything else dead. -/
def blockAtLeftEdge : Board := fun y x => (y == 5 || y == 6) && (x == 0 || x == 1)

/-- An `AppState` whose timer is paused. -/
def pausedState : AppState := ⟨deadBoard, ⟨true, 0, 50⟩⟩

/-- C1: fails on the code.  With the single live cell at `(29, 4)`,
`surrounding_count` at the edge cell `(0, 5)` returns 3, not the 1 live
toroidal neighbor the claim promises: because `current[0] == 0`, the
`new_x` branch returns `GRID_WIDTH - 1` for all eight directions, so the
live cell `(29, 4)` is referenced once per direction with `dy = -1`,
i.e. three times. -/
theorem C1_surrounding_count_miscounts_at_edge :
    surrounding_count lonelyEdgeBoard 0 5 = 3 ∧
      toroidal_count lonelyEdgeBoard 0 5 = 1 := by decide

/-- C2: for every board and every in-range cell, the cell's value after the
step equals the canonical Game-of-Life rule applied to its pre-step value
and the pre-step neighbor count — the operator precedence of the survival
branch notwithstanding, because the branch it absorbs (live cell, count 3)
is a no-op that keeps the pre-step value, which is `true` there. -/
theorem C2_execute_step_matches_canonical_rule (board : Board) (x y : Nat)
    (hx : x < GRID_WIDTH) (hy : y < GRID_HEIGHT) :
    execute_step true board y x
      = canonicalRule (board y x) (surrounding_count board x y) := by
  rw [execute_step_eval, if_pos ⟨hx, hy⟩, stepCell_canonical]

/-- Witness for C2 at the all-dead board and cell `(0, 0)`. -/
theorem C2_execute_step_matches_canonical_rule_witness :
    execute_step true deadBoard 0 0
      = canonicalRule (deadBoard 0 0) (surrounding_count deadBoard 0 0) :=
  C2_execute_step_matches_canonical_rule deadBoard 0 0 (by decide) (by decide)

/-- C3: fails on the code.  `add_cells` derives grid coordinates from the
cursor position without any bounds guard; at the bottom-right window edge
`(300, 200)` the derived coordinates are `(30, 20)` and the write
`board[y][x].alive = true` indexes out of bounds (embedded as `none`). -/
theorem C3_add_cells_out_of_bounds_at_window_edge :
    add_cells deadBoard true (some (300, 200)) = none := by
  unfold add_cells CELL_SIZE GRID_WIDTH GRID_HEIGHT
  norm_num

/-- C4: the in-place update of `execute_step` computes, for every input
board, the same grid as a two-buffer implementation that reads only the
generation-N snapshot and writes a disjoint fresh grid: each loop
iteration writes only its own cell, reads counts only from the cloned
`old_board`, and the survival no-op branch preserves a value no earlier
iteration has touched. -/
theorem C4_execute_step_refines_two_buffer (board : Board) :
    execute_step true board = step_twoBuffer board := by
  funext y x
  rw [execute_step_eval]
  rfl

/-- C5: fails on the code.  On the board whose only live cell is the corner
`(29, 19)`, `surrounding_count` at `(0, 0)` returns 8, not 1: both edge
branches fire, so all eight directions reference the single cell
`(29, 19)`.  The spec's toroidal count of that neighbor is 1. -/
theorem C5_corner_neighbor_counted_eight_times :
    surrounding_count lonelyCornerBoard 0 0 = 8 ∧
      toroidal_count lonelyCornerBoard 0 0 = 1 := by decide

/-- C6: fails on the code.  A 2×2 block at columns 0–1, rows 5–6 is not
preserved: the live cell `(0, 5)` sees only column 29 (all dead), counts 0
live neighbors, and dies. -/
theorem C6_block_at_edge_not_still :
    blockAtLeftEdge 5 0 = true ∧ execute_step true blockAtLeftEdge 5 0 = false := by
  decide

/-- C7: fails on the code.  Setting the single cell `(29, 4)` on the
all-dead board does set exactly that cell, but the subsequent step does
not return the all-dead grid: the dead edge cell `(0, 5)` references the
live cell `(29, 4)` three times, counts 3, and is born. -/
theorem C7_single_cell_step_not_all_dead :
    (setCell deadBoard 4 29 true) 4 29 = true ∧
      (setCell deadBoard 4 29 true) 5 0 = false ∧
      execute_step true (setCell deadBoard 4 29 true) 5 0 = true := by
  decide

/-- C8: for every in-range cell and every direction offset of the loop, the
neighbor indices computed by `surrounding_count` stay in range, and in the
interior branch the `isize → usize` cast is applied to a non-negative
value, so no out-of-bounds access is reachable during `execute_step`. -/
theorem C8_neighbor_indices_in_range (x y : Nat) (dx dy : Int)
    (hx : x < GRID_WIDTH) (hy : y < GRID_HEIGHT) (hd : (dx, dy) ∈ directions) :
    newX x dx < GRID_WIDTH ∧ newY y dy < GRID_HEIGHT ∧
      (x ≠ 0 → x ≠ GRID_WIDTH - 1 → 0 ≤ (x : Int) + dx) ∧
      (y ≠ 0 → y ≠ GRID_HEIGHT - 1 → 0 ≤ (y : Int) + dy) := by
  have hdxy : (dx = -1 ∨ dx = 0 ∨ dx = 1) ∧ (dy = -1 ∨ dy = 0 ∨ dy = 1) := by
    simp only [directions, List.mem_cons, List.not_mem_nil, or_false,
      Prod.mk.injEq] at hd
    rcases hd with ⟨h1, h2⟩ | ⟨h1, h2⟩ | ⟨h1, h2⟩ | ⟨h1, h2⟩ | ⟨h1, h2⟩ | ⟨h1, h2⟩ |
      ⟨h1, h2⟩ | ⟨h1, h2⟩ <;> subst h1 <;> subst h2 <;> simp
  obtain ⟨hdx, hdy⟩ := hdxy
  unfold newX newY GRID_WIDTH GRID_HEIGHT
  unfold GRID_WIDTH at hx
  unfold GRID_HEIGHT at hy
  refine ⟨?_, ?_, ?_, ?_⟩
  · split_ifs <;> omega
  · split_ifs <;> omega
  · intro h1 h2; omega
  · intro h1 h2; omega

/-- Witness for C8 at cell `(0, 0)` and direction `(-1, -1)`. -/
theorem C8_neighbor_indices_in_range_witness :
    newX 0 (-1) < GRID_WIDTH ∧ newY 0 (-1) < GRID_HEIGHT ∧
      ((0 : Nat) ≠ 0 → (0 : Nat) ≠ GRID_WIDTH - 1 → 0 ≤ ((0 : Nat) : Int) + -1) ∧
      ((0 : Nat) ≠ 0 → (0 : Nat) ≠ GRID_HEIGHT - 1 → 0 ≤ ((0 : Nat) : Int) + -1) :=
  C8_neighbor_indices_in_range 0 0 (-1) (-1) (by decide) (by decide) (by decide)

/-- C9: the step is deterministic — it is a pure function of the current
board (randomness appears only in the initial-board construction), so two
runs on identical input boards produce identical output boards. -/
theorem C9_step_deterministic (justFinished : Bool) (b b' : Board) (h : b = b') :
    execute_step justFinished b = execute_step justFinished b' := by rw [h]

/-- Witness for C9 at the all-dead board. -/
theorem C9_step_deterministic_witness :
    execute_step true deadBoard = execute_step true deadBoard :=
  C9_step_deterministic true deadBoard deadBoard rfl

/-- C10: pausing only suspends stepping.  The pause toggle changes only the
timer, never a cell; on any frame whose timer tick does not report "just
finished", `execute_step` returns the board unchanged; and a paused timer
never reports "just finished". -/
theorem C10_pause_only_suspends_stepping (spaceJustPressed : Bool) (s : AppState)
    (deltaMs : Nat) (h : (tickTimer s.timer deltaMs).2 = false) :
    (pause_sim_sys spaceJustPressed s).board = s.board ∧
      (execute_step_sys deltaMs s).board = s.board ∧
      (s.timer.paused = true → (tickTimer s.timer deltaMs).2 = false) := by
  refine ⟨rfl, ?_, fun hp => by simp [tickTimer, hp]⟩
  show execute_step (tickTimer s.timer deltaMs).2 s.board = s.board
  rw [h]
  exact rfl

/-- Witness for C10 at a paused state and a 16 ms frame. -/
theorem C10_pause_only_suspends_stepping_witness :
    (pause_sim_sys true pausedState).board = pausedState.board ∧
      (execute_step_sys 16 pausedState).board = pausedState.board ∧
      (pausedState.timer.paused = true → (tickTimer pausedState.timer 16).2 = false) :=
  C10_pause_only_suspends_stepping true pausedState 16 rfl
